import Mathlib

/-!
Verification of the research-engine MCP server's job queue, plugin
orchestrator, progress tracker, job lifecycle and plugin base classes,
as a shallow embedding of the TypeScript sources.

Sections:
* SQLite-backed job queue          (src/services/simpleQueue.ts)
* Job lifecycle tracker            (src/types/job.ts)
* Plugin base classes and retries  (src/plugins/base.ts, src/utils/retry.ts)
* Plugin orchestrator              (src/plugins/orchestrator.ts)
-/

namespace ResearchEngine

/-! ## SQLite-backed job queue (src/services/simpleQueue.ts)

The `jobs` table is modelled as an insertion-ordered list of rows.  SQL
`UPDATE ... WHERE id = ?` is a map over rows with a matching id.  `unixepoch()`
timestamps are passed in explicitly as `now` parameters. -/

inductive QStatus
  | pending
  | processing
  | completed
  | failed
deriving DecidableEq, Repr

structure JobRow where
  id : String
  status : QStatus
  data : String
  result : Option String := none
  progress : Int := 0
  current_step : String := ""
  created_at : Int
  started_at : Option Int := none
  completed_at : Option Int := none
  attempts : Int := 0
  error : Option String := none
deriving DecidableEq, Repr

abbrev QueueState := List JobRow

/-- SQL `UPDATE jobs SET ... WHERE id = ?`: apply `f` to every row whose id
matches (with the `id` PRIMARY KEY there is at most one). -/
def updateRow (id : String) (f : JobRow → JobRow) (s : QueueState) : QueueState :=
  s.map fun r => if r.id = id then f r else r

/-- `createJob`: `INSERT INTO jobs (id, data) VALUES (?, ?)` with column
defaults `status='pending'`, `progress=0`, `attempts=0`,
`created_at=unixepoch()`.  The generated uuid is passed in as `id`. -/
def createJob (id data : String) (now : Int) (s : QueueState) : QueueState :=
  s ++ [{ id := id, status := .pending, data := data, created_at := now }]

/-- The filter of `getNextJob`'s SELECT:
`WHERE status = 'pending' AND attempts < 3`. -/
def eligibleRow (r : JobRow) : Bool :=
  decide (r.status = QStatus.pending ∧ r.attempts < 3)

/-- Accumulator step realising `ORDER BY created_at LIMIT 1`: keep the row
with the smaller `created_at`, the earlier row in table order winning ties. -/
def minStep : Option JobRow → JobRow → Option JobRow
  | none, r => some r
  | some b, r => if r.created_at < b.created_at then some r else some b

/-- `ORDER BY created_at LIMIT 1` over the eligible rows: the first row (in
table order) among those with minimal `created_at`. -/
def selectNextPending (s : QueueState) : Option JobRow :=
  (s.filter eligibleRow).foldl minStep none

/-- The UPDATE of `getNextJob`: `SET status='processing',
started_at=unixepoch(), attempts=attempts+1`. -/
def markProcessing (now : Int) (r : JobRow) : JobRow :=
  { r with status := .processing, started_at := some now, attempts := r.attempts + 1 }

/-- `getNextJob`: inside one transaction, select the next pending job, flip it
to processing, and re-read the updated row.  Returns the row (if any) and the
new table state. -/
def getNextJob (now : Int) (s : QueueState) : Option JobRow × QueueState :=
  match selectNextPending s with
  | none => (none, s)
  | some r =>
    let s' := updateRow r.id (markProcessing now) s
    (s'.find? fun j => j.id == r.id, s')

/-- `updateJobProgress`: `SET progress = ?, current_step = COALESCE(?, current_step)`.
The `job_progress` side table is not modelled (no claim touches it). -/
def updateJobProgress (id : String) (progress : Int) (step : Option String)
    (s : QueueState) : QueueState :=
  updateRow id (fun r => { r with progress := progress, current_step := step.getD r.current_step }) s

/-- `completeJob`: `SET status='completed', result=?, completed_at=unixepoch(), progress=100`. -/
def completeJob (id result : String) (now : Int) (s : QueueState) : QueueState :=
  updateRow id (fun r =>
    { r with status := .completed, result := some result,
             completed_at := some now, progress := 100 }) s

/-- `failJob`: `SET status='failed', error=?, completed_at=unixepoch()`. -/
def failJob (id err : String) (now : Int) (s : QueueState) : QueueState :=
  updateRow id (fun r =>
    { r with status := .failed, error := some err, completed_at := some now }) s

/-- One queue operation, as named in the claims. -/
inductive QOp
  | create (id data : String) (now : Int)
  | next (now : Int)
  | updateProgress (id : String) (progress : Int) (step : Option String)
  | complete (id result : String) (now : Int)
  | fail (id err : String) (now : Int)
deriving DecidableEq, Repr

def applyOp (s : QueueState) : QOp → QueueState
  | .create id data now => createJob id data now s
  | .next now => (getNextJob now s).2
  | .updateProgress id p step => updateJobProgress id p step s
  | .complete id result now => completeJob id result now s
  | .fail id err now => failJob id err now s

def runOps (s : QueueState) (ops : List QOp) : QueueState :=
  ops.foldl applyOp s

def terminalStatus (st : QStatus) : Bool :=
  st == QStatus.completed || st == QStatus.failed

/-- Operation preconditions of a well-formed run: `create` uses a fresh uuid
(`id` is the PRIMARY KEY), and a terminal transition (`complete`/`fail`) is
only applied to a job that is not already terminal. -/
def okOp (s : QueueState) : QOp → Bool
  | .create id _ _ => s.all fun r => !(r.id == id)
  | .next _ => true
  | .updateProgress _ _ _ => true
  | .complete id _ _ => s.all fun r => !(r.id == id) || !(terminalStatus r.status)
  | .fail id _ _ => s.all fun r => !(r.id == id) || !(terminalStatus r.status)

def wfRun : QueueState → List QOp → Bool
  | _, [] => true
  | s, op :: ops => okOp s op && wfRun (applyOp s op) ops

/-- The spec's terminal-state invariant on one row:
`status = 'completed' ⇔ result set` and `status = 'failed' ⇔ error set`. -/
def rowInv (r : JobRow) : Prop :=
  (r.status = QStatus.completed ↔ r.result.isSome) ∧
  (r.status = QStatus.failed ↔ r.error.isSome)

instance (r : JobRow) : Decidable (rowInv r) := by unfold rowInv; infer_instance

def terminalInv (s : QueueState) : Prop := ∀ r ∈ s, rowInv r

instance (s : QueueState) : Decidable (terminalInv s) := by
  unfold terminalInv; infer_instance

def idsNodup (s : QueueState) : Prop := (s.map JobRow.id).Nodup

instance (s : QueueState) : Decidable (idsNodup s) := by
  unfold idsNodup; infer_instance

def queueInv (s : QueueState) : Prop := idsNodup s ∧ terminalInv s

/-! ## Job lifecycle tracker (src/types/job.ts)

`JobLifecycle` is a mutable record with transition methods; it is modelled as
a state type with pure transition functions.  `Date.now()` timestamps and the
derived `duration` are not modelled (no claim touches them); the message log
keeps the message text without the ISO-date prefix. -/

inductive JobStatus
  | queued
  | running
  | partialOk
  | succeeded
  | failed
  | cancelled
deriving DecidableEq, Repr

inductive PJStatus
  | pending
  | running
  | completed
  | failed
  | skipped
deriving DecidableEq, Repr

structure PluginJobStatus where
  pluginId : String
  status : PJStatus
  progress : Int
  message : Option String := none
  error : Option String := none
deriving DecidableEq, Repr

/-- A `Partial<PluginJobStatus>` as passed to `updatePluginStatus`: present
fields overwrite, absent fields are kept (`Object.assign`). -/
structure PluginJobPatch where
  status : Option PJStatus := none
  progress : Option Int := none
  message : Option String := none
  error : Option String := none
deriving DecidableEq, Repr

def applyPatch (b : PluginJobStatus) (p : PluginJobPatch) : PluginJobStatus :=
  { pluginId := b.pluginId,
    status := p.status.getD b.status,
    progress := p.progress.getD b.progress,
    message := p.message.or b.message,
    error := p.error.or b.error }

structure JobLifecycleState where
  status : JobStatus
  percentComplete : ℚ
  currentStep : String
  messages : List String
  pluginStatuses : List (String × PluginJobStatus)
deriving DecidableEq, Repr

namespace JobLifecycle

/-- The constructor's initial `progress` record. -/
def init : JobLifecycleState :=
  { status := .queued, percentComplete := 0, currentStep := "Initializing",
    messages := ["Job created"], pluginStatuses := [] }

/-- `addMessage`: append, then keep only the last 100 entries. -/
def addMessage (m : String) (j : JobLifecycleState) : JobLifecycleState :=
  { j with messages :=
      if (j.messages ++ [m]).length > 100
      then (j.messages ++ [m]).drop ((j.messages ++ [m]).length - 100)
      else j.messages ++ [m] }

def start (j : JobLifecycleState) : JobLifecycleState :=
  addMessage "Job started" { j with status := .running }

/-- `updateStep(step, percentComplete?)` with the JS clamp
`Math.min(100, Math.max(0, percentComplete))`. -/
def updateStep (step : String) (pc : Option ℚ) (j : JobLifecycleState) :
    JobLifecycleState :=
  addMessage step
    { j with currentStep := step,
             percentComplete := match pc with
               | some q => min 100 (max 0 q)
               | none => j.percentComplete }

/-- The `pluginStatuses[pluginId] ??= {pluginId, status:'pending', progress:0}`
initialisation step of `updatePluginStatus` (a `Record` keyed by plugin id,
modelled as an insertion-ordered association list). -/
def upsertPending (pid : String) (m : List (String × PluginJobStatus)) :
    List (String × PluginJobStatus) :=
  if (m.lookup pid).isSome then m
  else m ++ [(pid, { pluginId := pid, status := .pending, progress := 0 })]

/-- The map after `Object.assign(this.progress.pluginStatuses[pluginId], status)`. -/
def patchedMap (pid : String) (p : PluginJobPatch)
    (m : List (String × PluginJobStatus)) : List (String × PluginJobStatus) :=
  (upsertPending pid m).map fun kv => if kv.1 = pid then (kv.1, applyPatch kv.2 p) else kv

/-- `updatePluginStatus`: patch the per-plugin record, then set the overall
status to `PARTIAL_OK` when some plugin failed while another completed. -/
def updatePluginStatus (pid : String) (p : PluginJobPatch)
    (j : JobLifecycleState) : JobLifecycleState :=
  { j with
    pluginStatuses := patchedMap pid p j.pluginStatuses,
    status :=
      if ((patchedMap pid p j.pluginStatuses).map Prod.snd).any
            (fun s => s.status == PJStatus.failed) &&
         ((patchedMap pid p j.pluginStatuses).map Prod.snd).any
            (fun s => s.status == PJStatus.completed)
      then JobStatus.partialOk
      else j.status }

structure JobError where
  code : String
  message : String
  retryable : Bool
  retryIn : Option Int := none
deriving DecidableEq, Repr

/-- The `JobResult` returned by the terminal transitions (metadata omitted;
`data` kept opaque as an optional string). -/
structure JobResultRec where
  status : JobStatus
  data : Option String := none
  error : Option JobError := none
  pluginResults : List PluginJobStatus
deriving DecidableEq, Repr

/-- `succeed(data?)`: unconditionally sets status `SUCCEEDED` and
`percentComplete = 100`, and returns a `SUCCEEDED` result. -/
def succeed (d : Option String) (j : JobLifecycleState) :
    JobResultRec × JobLifecycleState :=
  let j' := addMessage "Job completed successfully"
    { j with status := .succeeded, percentComplete := 100 }
  ({ status := .succeeded, data := d,
     pluginResults := j'.pluginStatuses.map Prod.snd }, j')

/-- `fail(error)`: unconditionally sets status `FAILED` and returns a `FAILED`
result carrying the error. -/
def fail (e : JobError) (j : JobLifecycleState) :
    JobResultRec × JobLifecycleState :=
  let j' := addMessage ("Job failed: " ++ e.message) { j with status := .failed }
  ({ status := .failed, error := some e,
     pluginResults := j'.pluginStatuses.map Prod.snd }, j')

/-- `cancel()`: sets status `CANCELLED` and returns a `CANCELLED` result. -/
def cancel (j : JobLifecycleState) : JobResultRec × JobLifecycleState :=
  let j' := addMessage "Job cancelled" { j with status := .cancelled }
  ({ status := .cancelled,
     pluginResults := j'.pluginStatuses.map Prod.snd }, j')

end JobLifecycle

/-! ## Retry utility (src/utils/retry.ts) and plugin base class (src/plugins/base.ts)

`withRetry` delegates to the `p-retry` dependency.  Per p-retry/retry's
documented semantics, `retries` is the number of *retries*, so the operation
runs at most `retries + 1` times, and with `randomize` off the backoff before
the `a`-th retry (0-based) is `min(maxTimeout, minTimeout * factor^a)`. -/

structure RetryOptions where
  retries : Option Nat := none
  factor : Option Nat := none
  minTimeout : Option Nat := none
  maxTimeout : Option Nat := none
deriving DecidableEq, Repr

structure ResolvedRetryOptions where
  retries : Nat
  factor : Nat
  minTimeout : Nat
  maxTimeout : Nat
deriving DecidableEq, Repr

def DEFAULT_RETRY_OPTIONS : ResolvedRetryOptions :=
  { retries := 5, factor := 2, minTimeout := 1000, maxTimeout := 30000 }

/-- The spread `{ ...DEFAULT_RETRY_OPTIONS, ...options }`. -/
def mergeRetryOptions (o : RetryOptions) : ResolvedRetryOptions :=
  { retries := o.retries.getD DEFAULT_RETRY_OPTIONS.retries,
    factor := o.factor.getD DEFAULT_RETRY_OPTIONS.factor,
    minTimeout := o.minTimeout.getD DEFAULT_RETRY_OPTIONS.minTimeout,
    maxTimeout := o.maxTimeout.getD DEFAULT_RETRY_OPTIONS.maxTimeout }

/-- Backoff delay before the `attempt`-th retry (0-based), `randomize` off:
`min(maxTimeout, minTimeout * factor^attempt)`. -/
def retryTimeout (o : ResolvedRetryOptions) (attempt : Nat) : Nat :=
  min o.maxTimeout (o.minTimeout * o.factor ^ attempt)

/-- p-retry's driver: run attempt `attempt`, retrying on error while
`retriesLeft` remain; returns the outcome and the number of invocations.
The operation is indexed by attempt number so per-attempt outcomes can vary. -/
def pRetryRun {E A : Type} (f : Nat → Except E A) :
    Nat → Nat → Except E A × Nat
  | attempt, retriesLeft =>
    match f attempt with
    | .ok a => (.ok a, 1)
    | .error e =>
      match retriesLeft with
      | 0 => (.error e, 1)
      | r + 1 =>
        let rest := pRetryRun f (attempt + 1) r
        (rest.1, rest.2 + 1)

/-- `withRetry(fn, options)`: merge with the defaults and run p-retry
(attempt numbers start at 1).  Returns the outcome and invocation count. -/
def withRetry {E A : Type} (f : Nat → Except E A) (options : RetryOptions) :
    Except E A × Nat :=
  pRetryRun f 1 (mergeRetryOptions options).retries

/-! ### Plugin data model (src/plugins/types.ts) -/

structure Document where
  id : String
  title : String
  content : String
deriving DecidableEq, Repr

inductive ErrorCode
  | USER_ERROR
  | TEMP_ERROR
  | PERM_ERROR
deriving DecidableEq, Repr

structure PluginError where
  code : ErrorCode
  message : String
  retryIn : Option Nat := none
deriving DecidableEq, Repr

structure PluginResultMeta where
  source : String
  documentsFound : Nat
  cached : Bool := false
deriving DecidableEq, Repr

structure PluginResult where
  success : Bool
  documents : List Document
  metadata : PluginResultMeta
  error : Option PluginError := none
deriving DecidableEq, Repr

/-- Shape of a thrown JS error as inspected by `handleError`
(`status`, `code`, `message` may each be absent). -/
structure JsError where
  status : Option Nat := none
  code : Option String := none
  message : Option String := none
deriving DecidableEq, Repr

/-- JS `a || b` on an optional string (`undefined` and `''` are falsy). -/
def jsOr (m : Option String) (d : String) : String :=
  match m with
  | some s => if s = "" then d else s
  | none => d

namespace BaseSourcePlugin

/-- `BaseSourcePlugin.handleError`: classify a thrown error into the
`USER_ERROR`/`TEMP_ERROR`/`PERM_ERROR` taxonomy. -/
def handleError (name : String) (e : JsError) : PluginError :=
  if e.status = some 429 ∨ e.code = some "rate_limit" then
    { code := .TEMP_ERROR, message := name ++ " rate limit exceeded", retryIn := some 300 }
  else if e.code = some "ECONNREFUSED" ∨ e.code = some "ETIMEDOUT" then
    { code := .TEMP_ERROR, message := name ++ " service unavailable", retryIn := some 60 }
  else if e.code = some "invalid_query" ∨ e.status = some 400 then
    { code := .USER_ERROR, message := jsOr e.message "Invalid search query" }
  else
    { code := .PERM_ERROR, message := jsOr e.message (name ++ " plugin error") }

/-- `BaseSourcePlugin.search`: return the cached result when present
(marking `metadata.cached`); otherwise run the subclass `doSearch` through
`withRetry({retries: 3, minTimeout: 1000})`, and on exhaustion convert the
error via `handleError` into a failed `PluginResult` — the method itself
never throws.  Timing metadata and the TTL cache write are not modelled. -/
def search (id name : String) (cached : Option PluginResult)
    (doSearch : Nat → Except JsError PluginResult) : PluginResult :=
  match cached with
  | some c => { c with metadata := { c.metadata with cached := true } }
  | none =>
    match (withRetry doSearch { retries := some 3, minTimeout := some 1000 }).1 with
    | .ok r => r
    | .error e =>
      { success := false, documents := [],
        metadata := { source := id, documentsFound := 0 },
        error := some (handleError name e) }

/-- Number of `doSearch` invocations performed by `search`. -/
def searchAttempts (cached : Option PluginResult)
    (doSearch : Nat → Except JsError PluginResult) : Nat :=
  match cached with
  | some _ => 0
  | none => (withRetry doSearch { retries := some 3, minTimeout := some 1000 }).2

end BaseSourcePlugin

/-! ## Plugin orchestrator (src/plugins/orchestrator.ts)

The orchestrator's `executeResearch` pipeline is modelled as a pure function
of: the registered source plugins (each carrying the outcome of its
`supports` predicate and of its `search` call for this run), a per-index
wrapper-rejection oracle (a task of `Promise.allSettled` that rejects), the
requested export format, and the registry's export-plugin lookup.  A thrown
JS error is `Except.error`; JS truthiness of the optional format string is
modelled as `Option` presence. -/

inductive PluginStatus
  | PENDING
  | RUNNING
  | COMPLETED
  | FAILED
  | SKIPPED
deriving DecidableEq, Repr

/-- Per-plugin record produced by one orchestration run
(timing fields omitted). -/
structure PluginExecutionResult where
  pluginId : String
  status : PluginStatus
  result : Option PluginResult := none
  error : Option PluginError := none
deriving DecidableEq, Repr

/-- A registered source plugin, carrying this run's outcomes:
`supports` may return a Bool or throw; `search` may return a result or
throw/reject. -/
structure SourcePlugin where
  id : String
  supports : Except String Bool
  search : Except JsError PluginResult
deriving Repr

/-- The `try { if (plugin.supports(query, context)) ... } catch { ... }` test:
true only when the predicate returned true (exceptions are caught and count
as exclusion). -/
def supportsOk (p : SourcePlugin) : Bool :=
  match p.supports with
  | .ok b => b
  | .error _ => false

/-- `PluginRegistry.getSourcePluginsForQuery`: keep every plugin whose
`supports` predicate returns true; predicate exceptions are caught and the
plugin excluded. -/
def getSourcePluginsForQuery (plugins : List SourcePlugin) : List SourcePlugin :=
  plugins.filter supportsOk

/-- `PluginOrchestrator.executeSourcePlugin`: run `plugin.search`; a result
maps to COMPLETED/FAILED by its `success` flag; a thrown error is caught and
converted to a FAILED record with a PERM_ERROR. -/
def executeSourcePlugin (p : SourcePlugin) : PluginExecutionResult :=
  match p.search with
  | .ok r =>
    { pluginId := p.id,
      status := if r.success then .COMPLETED else .FAILED,
      result := some r,
      error := r.error }
  | .error e =>
    { pluginId := p.id, status := .FAILED,
      error := some { code := .PERM_ERROR,
                      message := e.message.getD "Plugin execution failed" } }

/-- The rejected branch of `Promise.allSettled` in `executeSourcePlugins`:
`settledResult.reason?.message || 'Plugin execution failed'`. -/
def settleFailed (p : SourcePlugin) (reason : JsError) : PluginExecutionResult :=
  { pluginId := p.id, status := .FAILED,
    error := some { code := .PERM_ERROR,
                    message := jsOr reason.message "Plugin execution failed" } }

/-- One entry of the settled-results loop: the task either rejected (the
wrapper around the plugin threw) or fulfilled with `executeSourcePlugin`'s
record. -/
def settleOne (p : SourcePlugin) (reject : Option JsError) : PluginExecutionResult :=
  match reject with
  | some reason => settleFailed p reason
  | none => executeSourcePlugin p

/-- `PluginOrchestrator.executeSourcePlugins`: run every plugin (under the
concurrency limiter) and convert each settled outcome, in plugin order. -/
def executeSourcePlugins (ps : List SourcePlugin)
    (wrapperReject : Nat → Option JsError) : List PluginExecutionResult :=
  ps.enum.map fun ip => settleOne ip.2 (wrapperReject ip.1)

/-- The aggregation loop of `analyzeDocuments`: documents of results with
`status === COMPLETED` (and a present `result`), in order. -/
def collectDocuments : List PluginExecutionResult → List Document
  | [] => []
  | r :: rest =>
    (if r.status = PluginStatus.COMPLETED then
      (match r.result with
       | some pr => pr.documents
       | none => [])
     else []) ++ collectDocuments rest

/-- The analysis output consumed by export plugins and the final
`ResearchResult` (ids, insights, recommendations and timing metadata
omitted). -/
structure AnalysisResult where
  query : String
  summary : String
  sources : List Document
  totalDocuments : Nat
deriving DecidableEq, Repr

/-- `PluginOrchestrator.analyzeDocuments`: aggregate documents of COMPLETED
results; throw `'No documents collected from any source'` when none; else
build the analysis (fallback branch; the AI branch changes only how the
result is synthesised, not the aggregation or the zero-document failure). -/
def analyzeDocuments (results : List PluginExecutionResult) (query : String) :
    Except String AnalysisResult :=
  if (collectDocuments results).length = 0 then
    Except.error "No documents collected from any source"
  else
    Except.ok
      { query := query,
        summary := "Analysis of " ++ toString (collectDocuments results).length ++
          " documents for query: \"" ++ query ++ "\"",
        sources := (collectDocuments results).take 10,
        totalDocuments := (collectDocuments results).length }

structure ExportResult where
  success : Bool
  format : String
  location : Option String := none
  error : Option String := none
deriving DecidableEq, Repr

/-- A registered export plugin; `exportRun` is the outcome of
`plugin.export(analysis, ctx)` for this run — `Except.error` models a
rejected promise. -/
structure ExportPlugin where
  id : String
  format : String
  exportRun : Except String ExportResult
deriving Repr

/-- `BaseExportPlugin.export`: a thrown `validateConfig` failure or a
`doExport` rejection is caught and turned into a failed `ExportResult`; the
wrapper itself never rejects. -/
def baseExportRun (format : String) (validateOk : Bool)
    (doExport : Except String ExportResult) : ExportResult :=
  if validateOk = false then
    { success := false, format := format, error := some "Invalid export configuration" }
  else
    match doExport with
    | .ok r => r
    | .error msg => { success := false, format := format, error := some msg }

/-- An export plugin built on `BaseExportPlugin`: its `export` always
fulfills, with `baseExportRun`'s result. -/
def mkBaseExportPlugin (id format : String) (validateOk : Bool)
    (doExport : Except String ExportResult) : ExportPlugin :=
  { id := id, format := format, exportRun := Except.ok (baseExportRun format validateOk doExport) }

/-- `PluginOrchestrator.exportResults`: look up the export plugin for the
format (missing plugin: warn and return); await its `export`, discarding the
returned `ExportResult`; a rejection propagates to the caller. -/
def exportResults (getExportPlugin : String → Option ExportPlugin)
    (format : String) : Except String Unit :=
  match getExportPlugin format with
  | none => Except.ok ()
  | some p =>
    match p.exportRun with
    | .ok _ => Except.ok ()
    | .error e => Except.error e

/-- The `ResearchResult` returned on success (duration omitted). -/
structure ResearchResult where
  success : Bool
  analysis : AnalysisResult
  pluginResults : List PluginExecutionResult
  pluginsUsed : List String
  totalDocuments : Nat
deriving DecidableEq, Repr

/-- `PluginOrchestrator.executeResearch` (result view): discovery, data
collection, analysis, optional export.  Any exception thrown in discovery,
analysis or export propagates (the catch block re-throws after marking the
progress tracker failed).  The second component counts how many plugin
`search` calls were performed. -/
def executeResearch (plugins : List SourcePlugin) (query : String)
    (wrapperReject : Nat → Option JsError) (exportFormat : Option String)
    (getExportPlugin : String → Option ExportPlugin) :
    Except String ResearchResult × Nat :=
  let sourcePlugins := getSourcePluginsForQuery plugins
  if sourcePlugins.length = 0 then
    (Except.error "No plugins available for this query", 0)
  else
    let pluginResults := executeSourcePlugins sourcePlugins wrapperReject
    match analyzeDocuments pluginResults query with
    | .error e => (Except.error e, sourcePlugins.length)
    | .ok analysis =>
      let finish : Except String ResearchResult :=
        Except.ok
          { success := true, analysis := analysis, pluginResults := pluginResults,
            pluginsUsed := sourcePlugins.map SourcePlugin.id,
            totalDocuments := analysis.totalDocuments }
      match exportFormat with
      | none => (finish, sourcePlugins.length)
      | some fmt =>
        match exportResults getExportPlugin fmt with
        | .error e => (Except.error e, sourcePlugins.length)
        | .ok _ => (finish, sourcePlugins.length)

/-! ### Progress tracker (class `ProgressTracker` in orchestrator.ts) -/

inductive TrackerStatus
  | running
  | completed
  | failed
deriving DecidableEq, Repr

inductive Phase
  | plugin_discovery
  | data_collection
  | analysis
  | exportPhase
deriving DecidableEq, Repr

/-- The fixed phase-weight table (5/40/40/15). -/
def phaseWeight : Phase → ℚ
  | .plugin_discovery => 5
  | .data_collection => 40
  | .analysis => 40
  | .exportPhase => 15

/-- `ProgressTracker`'s private state: per-phase completion flags and
messages, per-plugin progress, accumulated progress, status, error. -/
structure TrackerState where
  discoveryDone : Bool := false
  collectionDone : Bool := false
  analysisDone : Bool := false
  exportDone : Bool := false
  discoveryMsg : String := ""
  collectionMsg : String := ""
  analysisMsg : String := ""
  exportMsg : String := ""
  pluginProgress : List (String × ℚ) := []
  currentProgress : ℚ := 0
  status : TrackerStatus := .running
  error : Option String := none
deriving DecidableEq, Repr

def TrackerState.isDone (s : TrackerState) : Phase → Bool
  | .plugin_discovery => s.discoveryDone
  | .data_collection => s.collectionDone
  | .analysis => s.analysisDone
  | .exportPhase => s.exportDone

def TrackerState.setDone (s : TrackerState) : Phase → TrackerState
  | .plugin_discovery => { s with discoveryDone := true }
  | .data_collection => { s with collectionDone := true }
  | .analysis => { s with analysisDone := true }
  | .exportPhase => { s with exportDone := true }

def TrackerState.setMsg (s : TrackerState) (p : Phase) (m : String) : TrackerState :=
  match p with
  | .plugin_discovery => { s with discoveryMsg := m }
  | .data_collection => { s with collectionMsg := m }
  | .analysis => { s with analysisMsg := m }
  | .exportPhase => { s with exportMsg := m }

/-- The tracker mutations performed by `executeResearch`. -/
inductive TrackerOp
  | updatePhase (p : Phase) (msg : String)
  | completePhase (p : Phase)
  | updatePlugin (pid msg : String) (percent : Option ℚ)
  | addProgress (amount : ℚ)
  | complete
  | fail (err : String)

/-- One `ProgressTracker` method call.  `updatePhase` records a message;
`completePhase` adds the phase weight once; `addProgress` clamps at 100;
`complete` forces progress to 100 and terminal status; `fail` records the
error, leaving progress unchanged. -/
def applyTrackerOp (s : TrackerState) : TrackerOp → TrackerState
  | .updatePhase p msg => s.setMsg p msg
  | .completePhase p =>
    if s.isDone p then s
    else { s.setDone p with currentProgress := s.currentProgress + phaseWeight p }
  | .updatePlugin pid _ percent =>
    match percent with
    | some q =>
      { s with pluginProgress :=
          if (s.pluginProgress.lookup pid).isSome then
            s.pluginProgress.map fun kv => if kv.1 = pid then (pid, q) else kv
          else s.pluginProgress ++ [(pid, q)] }
    | none => s
  | .addProgress amount =>
    { s with currentProgress := min 100 (s.currentProgress + amount) }
  | .complete => { s with status := .completed, currentProgress := 100 }
  | .fail err => { s with status := .failed, error := some err }

/-- `Math.round` on the (non-negative) progress values. -/
def jsRound (q : ℚ) : ℤ := Int.floor (q + 1 / 2)

/-- States recorded by the `emit('progress', progress.getState())` calls:
each op is tagged with whether an emission follows it (the only op not
followed by one is `completePhase('export')`). -/
def trackerTraceFlagged (s : TrackerState) : List (TrackerOp × Bool) → List TrackerState
  | [] => []
  | (op, emitted) :: ops =>
    (if emitted then [applyTrackerOp s op] else []) ++
      trackerTraceFlagged (applyTrackerOp s op) ops

def lastTrackerState (s : TrackerState) (ops : List (TrackerOp × Bool)) : TrackerState :=
  ops.foldl (fun t op => applyTrackerOp t op.1) s

/-- Ops before data collection: discovery message, discovery completion,
collection message. -/
def preCollectionOps (n : Nat) : List (TrackerOp × Bool) :=
  [(TrackerOp.updatePhase .plugin_discovery "Discovering relevant sources...", true),
   (TrackerOp.completePhase .plugin_discovery, true),
   (TrackerOp.updatePhase .data_collection
      ("Searching " ++ toString n ++ " sources..."), true)]

/-- Data collection: each of the `n` plugin tasks calls
`addProgress(40 / n)` and emits.  (The `updatePlugin` emissions leave
`currentProgress` untouched and are omitted from the recorded sequence, which
the claim restricts to completePhase/addProgress/complete emissions.) -/
def collectionOps (n : Nat) : List (TrackerOp × Bool) :=
  List.replicate n (TrackerOp.addProgress (40 / (n : ℚ)), true)

def postCollectionOps : List (TrackerOp × Bool) :=
  [(TrackerOp.completePhase .data_collection, true),
   (TrackerOp.updatePhase .analysis "Analyzing collected documents...", true)]

/-- The emitting ops from run start through the analysis message (common to
every run that found at least one plugin). -/
def frontBase (n : Nat) : List (TrackerOp × Bool) :=
  preCollectionOps n ++ collectionOps n ++ postCollectionOps

/-- The op sequence of one `executeResearch` run: the ops before the terminal
transition (each tagged with its emission), and the terminal op
(`fail` on a thrown error, else `complete`). -/
def researchRunOps (plugins : List SourcePlugin) (query : String)
    (wrapperReject : Nat → Option JsError) (exportFormat : Option String)
    (getExportPlugin : String → Option ExportPlugin) :
    List (TrackerOp × Bool) × TrackerOp :=
  if (getSourcePluginsForQuery plugins).length = 0 then
    ([(TrackerOp.updatePhase .plugin_discovery "Discovering relevant sources...", true)],
     TrackerOp.fail "No plugins available for this query")
  else
    match analyzeDocuments
        (executeSourcePlugins (getSourcePluginsForQuery plugins) wrapperReject) query with
    | .error e =>
      (frontBase (getSourcePluginsForQuery plugins).length, TrackerOp.fail e)
    | .ok _ =>
      match exportFormat with
      | none =>
        (frontBase (getSourcePluginsForQuery plugins).length ++
          [(TrackerOp.completePhase .analysis, true)], TrackerOp.complete)
      | some fmt =>
        match exportResults getExportPlugin fmt with
        | .error e =>
          (frontBase (getSourcePluginsForQuery plugins).length ++
            [(TrackerOp.completePhase .analysis, true),
             (TrackerOp.updatePhase .exportPhase "Exporting results...", true)],
           TrackerOp.fail e)
        | .ok _ =>
          (frontBase (getSourcePluginsForQuery plugins).length ++
            [(TrackerOp.completePhase .analysis, true),
             (TrackerOp.updatePhase .exportPhase "Exporting results...", true),
             (TrackerOp.completePhase .exportPhase, false)],
           TrackerOp.complete)

/-- The sequence of `ProgressTracker` states recorded over one
`executeResearch` run: the fresh tracker's state (emitted on entry), the
states after each emitting op, and the state after the terminal op. -/
def executeResearchTrace (plugins : List SourcePlugin) (query : String)
    (wrapperReject : Nat → Option JsError) (exportFormat : Option String)
    (getExportPlugin : String → Option ExportPlugin) : List TrackerState :=
  let ops := researchRunOps plugins query wrapperReject exportFormat getExportPlugin
  (({} : TrackerState) :: trackerTraceFlagged {} ops.1) ++
    [applyTrackerOp (lastTrackerState {} ops.1) ops.2]

/-- Ops that keep the tracker status `running` (all but the terminal
`complete`/`fail`). -/
def keepsRunning : TrackerOp → Bool
  | .complete => false
  | .fail _ => false
  | _ => true

/-- Condition under which one op cannot decrease `currentProgress` at state
`s`: `addProgress` needs a non-negative amount and progress within the
clamp bound; `complete` (which forces 100) is excluded; the rest never
change or only add a non-negative phase weight. -/
def nonDecreasingAt (s : TrackerState) : TrackerOp → Prop
  | .addProgress a => 0 ≤ a ∧ s.currentProgress ≤ 100
  | .complete => False
  | _ => True

/-- Ops with no progress side condition at any state (neither `addProgress`
nor `complete`). -/
def plainOp : TrackerOp → Bool
  | .addProgress _ => false
  | .complete => false
  | _ => true

/-- Every op of the list is non-decreasing at the state where it runs. -/
def monoOps : TrackerState → List (TrackerOp × Bool) → Prop
  | _, [] => True
  | s, op :: ops => nonDecreasingAt s op.1 ∧ monoOps (applyTrackerOp s op.1) ops

/-- A concrete healthy source plugin used to exercise the export phase
(claim C3). -/
def c3Plugin : SourcePlugin :=
  { id := "s", supports := Except.ok true,
    search := Except.ok
      { success := true,
        documents := [{ id := "d1", title := "t", content := "c" }],
        metadata := { source := "s", documentsFound := 1 } } }

/-- The analysis produced for the one-document run of `c3Plugin` (claim C3). -/
def c3Analysis : AnalysisResult :=
  { query := "q", summary := "Analysis of 1 documents for query: \"q\"",
    sources := [{ id := "d1", title := "t", content := "c" }],
    totalDocuments := 1 }

/-! ### Queue lemmas -/

theorem minStep_ne_none (acc : Option JobRow) (r : JobRow) : minStep acc r ≠ none := by
  cases acc with
  | none => simp [minStep]
  | some b => simp only [minStep]; split <;> simp

theorem minStep_eq_some {acc : Option JobRow} {x r : JobRow}
    (h : minStep acc x = some r) : r = x ∨ acc = some r := by
  cases acc with
  | none => simp [minStep] at h; exact Or.inl h.symm
  | some b =>
    simp only [minStep] at h
    split at h
    · exact Or.inl (Option.some.inj h).symm
    · exact Or.inr (by rw [Option.some.inj h])

theorem foldl_minStep_none {l : List JobRow} {acc : Option JobRow}
    (h : l.foldl minStep acc = none) : l = [] ∧ acc = none := by
  induction l generalizing acc with
  | nil => exact ⟨rfl, h⟩
  | cons x xs ih =>
    simp only [List.foldl_cons] at h
    exact absurd (ih h).2 (minStep_ne_none acc x)

theorem foldl_minStep_mem {l : List JobRow} {acc : Option JobRow} {r : JobRow}
    (h : l.foldl minStep acc = some r) : r ∈ l ∨ acc = some r := by
  induction l generalizing acc with
  | nil => exact Or.inr h
  | cons x xs ih =>
    simp only [List.foldl_cons] at h
    rcases ih h with hm | hacc
    · exact Or.inl (List.mem_cons_of_mem _ hm)
    · rcases minStep_eq_some hacc with he | he
      · exact Or.inl (he ▸ List.mem_cons_self x xs)
      · exact Or.inr he

theorem foldl_minStep_le {l : List JobRow} {acc : Option JobRow} {r : JobRow}
    (h : l.foldl minStep acc = some r) :
    (∀ x ∈ l, r.created_at ≤ x.created_at) ∧
    ∀ b, acc = some b → r.created_at ≤ b.created_at := by
  induction l generalizing acc with
  | nil =>
    refine ⟨by simp, fun b hb => ?_⟩
    rw [hb] at h
    rw [Option.some.inj h]
  | cons x xs ih =>
    simp only [List.foldl_cons] at h
    obtain ⟨h1, h2⟩ := ih h
    constructor
    · intro y hy
      rcases List.mem_cons.mp hy with rfl | hy'
      · cases acc with
        | none => exact h2 y (by simp [minStep])
        | some b =>
          by_cases hcb : y.created_at < b.created_at
          · exact h2 y (by simp [minStep, hcb])
          · exact le_trans (h2 b (by simp [minStep, hcb])) (not_lt.mp hcb)
      · exact h1 y hy'
    · intro b hb
      subst hb
      by_cases hcb : x.created_at < b.created_at
      · exact le_trans (h2 x (by simp [minStep, hcb])) (le_of_lt hcb)
      · exact h2 b (by simp [minStep, hcb])

theorem mem_filter_eligible {s : QueueState} {r : JobRow} :
    r ∈ s.filter eligibleRow ↔
      r ∈ s ∧ r.status = QStatus.pending ∧ r.attempts < 3 := by
  simp [List.mem_filter, eligibleRow]

theorem selectNextPending_none_iff {s : QueueState} :
    selectNextPending s = none ↔
      ∀ r ∈ s, ¬(r.status = QStatus.pending ∧ r.attempts < 3) := by
  constructor
  · intro h r hr hpr
    have hfil := (foldl_minStep_none h).1
    have hmem : r ∈ s.filter eligibleRow := mem_filter_eligible.mpr ⟨hr, hpr⟩
    rw [hfil] at hmem
    cases hmem
  · intro h
    have hfil : s.filter eligibleRow = [] := by
      rw [List.filter_eq_nil_iff]
      intro r hr
      simp only [eligibleRow, decide_eq_true_eq]
      exact h r hr
    simp [selectNextPending, hfil]

theorem selectNextPending_spec {s : QueueState} {r : JobRow}
    (h : selectNextPending s = some r) :
    r ∈ s ∧ r.status = QStatus.pending ∧ r.attempts < 3 ∧
    ∀ x ∈ s, x.status = QStatus.pending → x.attempts < 3 →
      r.created_at ≤ x.created_at := by
  have hmem : r ∈ s.filter eligibleRow := by
    rcases foldl_minStep_mem h with hm | hacc
    · exact hm
    · cases hacc
  obtain ⟨hr, hp, ha⟩ := mem_filter_eligible.mp hmem
  refine ⟨hr, hp, ha, fun x hx hxp hxa => ?_⟩
  exact (foldl_minStep_le h).1 x (mem_filter_eligible.mpr ⟨hx, hxp, hxa⟩)

theorem idsNodup_unique {s : QueueState} (h : idsNodup s) {a b : JobRow}
    (ha : a ∈ s) (hb : b ∈ s) (hid : a.id = b.id) : a = b :=
  List.inj_on_of_nodup_map h ha hb hid

theorem updateRow_map_id {id : String} {f : JobRow → JobRow} {s : QueueState}
    (hf : ∀ r, (f r).id = r.id) :
    (updateRow id f s).map JobRow.id = s.map JobRow.id := by
  unfold updateRow
  rw [List.map_map]
  apply List.map_congr_left
  intro r _
  by_cases h : r.id = id <;> simp [h, hf]

theorem idsNodup_updateRow {id : String} {f : JobRow → JobRow} {s : QueueState}
    (hf : ∀ r, (f r).id = r.id) (h : idsNodup s) : idsNodup (updateRow id f s) := by
  unfold idsNodup
  rw [updateRow_map_id hf]
  exact h

theorem find?_updateRow {s : QueueState} {r : JobRow} (hnd : idsNodup s) (hmem : r ∈ s)
    (f : JobRow → JobRow) (hf : ∀ x, (f x).id = x.id) :
    (updateRow r.id f s).find? (fun j => j.id == r.id) = some (f r) := by
  induction s with
  | nil => cases hmem
  | cons x xs ih =>
    have hx : x.id ∉ xs.map JobRow.id := (List.nodup_cons.mp hnd).1
    have hnd' : idsNodup xs := (List.nodup_cons.mp hnd).2
    by_cases hxi : x.id = r.id
    · have hrx : r = x := by
        rcases List.mem_cons.mp hmem with rfl | hmemx
        · rfl
        · exact absurd (hxi ▸ List.mem_map_of_mem JobRow.id hmemx) hx
      subst hrx
      simp [updateRow, hxi, List.find?, hf]
    · have hmem' : r ∈ xs := by
        rcases List.mem_cons.mp hmem with rfl | hm
        · exact absurd rfl hxi
        · exact hm
      have := ih hnd' hmem'
      simp only [updateRow, List.map_cons, if_neg hxi, List.find?]
      rw [show (x.id == r.id) = false by simp [hxi]]
      exact this

theorem terminalInv_updateRow {s : QueueState} {id : String} {f : JobRow → JobRow}
    (hinv : terminalInv s)
    (hf : ∀ r ∈ s, r.id = id → rowInv (f r)) :
    terminalInv (updateRow id f s) := by
  intro x hx
  obtain ⟨r, hr, hxe⟩ := List.mem_map.mp hx
  by_cases h : r.id = id
  · rw [if_pos h] at hxe
    exact hxe ▸ hf r hr h
  · rw [if_neg h] at hxe
    exact hxe ▸ hinv r hr

theorem rowInv_notTerminal {r : JobRow} (h : rowInv r)
    (hc : r.status ≠ QStatus.completed) (hfd : r.status ≠ QStatus.failed) :
    r.result = none ∧ r.error = none := by
  obtain ⟨h1, h2⟩ := h
  constructor
  · cases hres : r.result with
    | none => rfl
    | some v => exact absurd (h1.mpr (by simp [hres])) hc
  · cases herr : r.error with
    | none => rfl
    | some v => exact absurd (h2.mpr (by simp [herr])) hfd

theorem rowInv_markProcessing {r : JobRow} (h : rowInv r)
    (hp : r.status = QStatus.pending) (now : Int) :
    rowInv (markProcessing now r) := by
  obtain ⟨hres, herr⟩ := rowInv_notTerminal h (by rw [hp]; decide) (by rw [hp]; decide)
  exact ⟨by simp [markProcessing, hres], by simp [markProcessing, herr]⟩

theorem queueInv_applyOp {s : QueueState} {op : QOp} (hs : queueInv s)
    (hok : okOp s op = true) : queueInv (applyOp s op) := by
  obtain ⟨hnd, hinv⟩ := hs
  cases op with
  | create id data now =>
    simp only [okOp, List.all_eq_true] at hok
    constructor
    · unfold applyOp createJob idsNodup
      rw [List.map_append]
      refine List.Nodup.append hnd (by simp) ?_
      intro a ha hb
      simp only [List.map_cons, List.map_nil, List.mem_singleton] at hb
      obtain ⟨r, hr, hre⟩ := List.mem_map.mp ha
      have := hok r hr
      rw [hre, hb] at this
      simp at this
    · intro r hr
      simp only [applyOp, createJob, List.mem_append, List.mem_singleton] at hr
      rcases hr with hr | hr
      · exact hinv r hr
      · subst hr
        exact ⟨by simp, by simp⟩
  | next now =>
    simp only [applyOp, getNextJob]
    cases hsel : selectNextPending s with
    | none => exact ⟨hnd, hinv⟩
    | some r =>
      obtain ⟨hr, hp, _, _⟩ := selectNextPending_spec hsel
      refine ⟨idsNodup_updateRow (fun x => rfl) hnd, ?_⟩
      apply terminalInv_updateRow hinv
      intro x hx hid
      have : x = r := idsNodup_unique hnd hx hr hid
      subst this
      exact rowInv_markProcessing (hinv x hx) hp now
  | updateProgress id p step =>
    refine ⟨idsNodup_updateRow (fun x => rfl) hnd, ?_⟩
    apply terminalInv_updateRow hinv
    intro x hx _
    obtain ⟨h1, h2⟩ := hinv x hx
    exact ⟨h1, h2⟩
  | complete id result now =>
    simp only [okOp, List.all_eq_true] at hok
    refine ⟨idsNodup_updateRow (fun x => rfl) hnd, ?_⟩
    apply terminalInv_updateRow hinv
    intro x hx hid
    have hnt := hok x hx
    rw [hid] at hnt
    simp [terminalStatus] at hnt
    obtain ⟨_, herr⟩ := rowInv_notTerminal (hinv x hx) hnt.1 hnt.2
    exact ⟨by simp, by simp [herr]⟩
  | fail id err now =>
    simp only [okOp, List.all_eq_true] at hok
    refine ⟨idsNodup_updateRow (fun x => rfl) hnd, ?_⟩
    apply terminalInv_updateRow hinv
    intro x hx hid
    have hnt := hok x hx
    rw [hid] at hnt
    simp [terminalStatus] at hnt
    obtain ⟨hres, _⟩ := rowInv_notTerminal (hinv x hx) hnt.1 hnt.2
    exact ⟨by simp [hres], by simp⟩

theorem queueInv_runOps {s : QueueState} {ops : List QOp} (hs : queueInv s)
    (h : wfRun s ops = true) : queueInv (runOps s ops) := by
  induction ops generalizing s with
  | nil => exact hs
  | cons op ops ih =>
    simp only [wfRun, Bool.and_eq_true] at h
    exact ih (queueInv_applyOp hs h.1) h.2

/-! ### Retry and base-plugin lemmas -/

theorem pRetryRun_count_le {E A : Type} (f : Nat → Except E A) (a r : Nat) :
    (pRetryRun f a r).2 ≤ r + 1 := by
  induction r generalizing a with
  | zero =>
    unfold pRetryRun
    cases f a <;> simp
  | succ n ih =>
    unfold pRetryRun
    cases f a with
    | ok v => simp
    | error e =>
      simp only []
      exact Nat.succ_le_succ (ih (a + 1))

theorem pRetryRun_allFail {E A : Type} (f : Nat → Except E A) (g : Nat → E)
    (h : ∀ n, f n = .error (g n)) (a r : Nat) :
    pRetryRun f a r = (.error (g (a + r)), r + 1) := by
  induction r generalizing a with
  | zero =>
    unfold pRetryRun
    rw [h a]
    simp
  | succ n ih =>
    unfold pRetryRun
    rw [h a]
    simp only [ih (a + 1)]
    rw [Nat.succ_add, ← Nat.add_succ]

theorem handleError_temp_retryIn (name : String) (e : JsError)
    (h : (BaseSourcePlugin.handleError name e).code = ErrorCode.TEMP_ERROR) :
    (BaseSourcePlugin.handleError name e).retryIn.isSome := by
  unfold BaseSourcePlugin.handleError at h ⊢
  split_ifs at h ⊢ <;> simp_all

/-! ### Progress tracker lemmas -/

theorem applyTrackerOp_status {s : TrackerState} {op : TrackerOp}
    (h : keepsRunning op = true) : (applyTrackerOp s op).status = s.status := by
  cases op with
  | updatePhase p msg => cases p <;> rfl
  | completePhase p =>
    show (if s.isDone p then s else _).status = s.status
    split
    · rfl
    · cases p <;> rfl
  | updatePlugin pid msg percent => cases percent <;> rfl
  | addProgress a => rfl
  | complete => simp [keepsRunning] at h
  | fail e => simp [keepsRunning] at h

theorem applyTrackerOp_progress_le {s : TrackerState} {op : TrackerOp}
    (h : nonDecreasingAt s op) :
    s.currentProgress ≤ (applyTrackerOp s op).currentProgress := by
  cases op with
  | updatePhase p msg => cases p <;> exact le_refl _
  | completePhase p =>
    show s.currentProgress ≤ (if s.isDone p then s else _).currentProgress
    split
    · exact le_refl _
    · show s.currentProgress ≤ s.currentProgress + phaseWeight p
      have : 0 ≤ phaseWeight p := by cases p <;> norm_num [phaseWeight]
      linarith
  | updatePlugin pid msg percent => cases percent <;> exact le_refl _
  | addProgress a =>
    obtain ⟨ha, hs⟩ := h
    show s.currentProgress ≤ min 100 (s.currentProgress + a)
    exact le_min hs (by linarith)
  | complete => exact h.elim
  | fail e => exact le_refl _

theorem chain_trackerTrace {ops : List (TrackerOp × Bool)} :
    ∀ {s t : TrackerState}, t.currentProgress ≤ s.currentProgress → monoOps s ops →
    List.Chain' (fun a b => a.currentProgress ≤ b.currentProgress)
      (t :: trackerTraceFlagged s ops) := by
  induction ops with
  | nil =>
    intro s t _ _
    simp [trackerTraceFlagged]
  | cons op ops ih =>
    intro s t ht h
    obtain ⟨o, em⟩ := op
    obtain ⟨h1, h2⟩ := h
    have hle := applyTrackerOp_progress_le h1
    cases em with
    | true =>
      show List.Chain' _ (t :: applyTrackerOp s o :: trackerTraceFlagged (applyTrackerOp s o) ops)
      exact List.chain'_cons.mpr ⟨le_trans ht hle, ih (le_refl _) h2⟩
    | false =>
      show List.Chain' _ (t :: trackerTraceFlagged (applyTrackerOp s o) ops)
      exact ih (le_trans ht hle) h2

theorem trackerTrace_running {ops : List (TrackerOp × Bool)} :
    ∀ {s : TrackerState}, s.status = TrackerStatus.running →
    (∀ op ∈ ops, keepsRunning op.1 = true) →
    ∀ x ∈ trackerTraceFlagged s ops, x.status = TrackerStatus.running := by
  induction ops with
  | nil =>
    intro s _ _ x hx
    simp [trackerTraceFlagged] at hx
  | cons op ops ih =>
    intro s hs hk x hx
    have hop := hk op (List.mem_cons_self _ _)
    have hs' : (applyTrackerOp s op.1).status = TrackerStatus.running :=
      (applyTrackerOp_status hop).trans hs
    obtain ⟨o, em⟩ := op
    rcases List.mem_append.mp hx with h1 | h2
    · cases em with
      | true =>
        simp only [List.mem_singleton, if_true] at h1
        rcases h1 with rfl
        exact hs'
      | false => simp at h1
    · exact ih hs' (fun o' ho' => hk o' (List.mem_cons_of_mem _ ho')) x h2

theorem takeWhile_append_terminal {l : List TrackerState} {t : TrackerState}
    (hl : ∀ x ∈ l, x.status = TrackerStatus.running)
    (ht : ¬ t.status = TrackerStatus.running) :
    (l ++ [t]).takeWhile (fun s => s.status == TrackerStatus.running) = l := by
  induction l with
  | nil =>
    simp only [List.nil_append, List.takeWhile]
    rw [show (t.status == TrackerStatus.running) = false by
      simpa using ht]
  | cons x xs ih =>
    have hx : (x.status == TrackerStatus.running) = true := by
      simpa using hl x (List.mem_cons_self _ _)
    simp only [List.cons_append, List.takeWhile, hx]
    exact congrArg (x :: ·) (ih fun y hy => hl y (List.mem_cons_of_mem _ hy))

theorem monoOps_of_plain {l : List (TrackerOp × Bool)}
    (h : ∀ op ∈ l, plainOp op.1 = true) : ∀ s, monoOps s l := by
  induction l with
  | nil => intro s; trivial
  | cons op ops ih =>
    intro s
    refine ⟨?_, ih (fun o ho => h o (List.mem_cons_of_mem _ ho)) _⟩
    have hp := h op (List.mem_cons_self _ _)
    cases hop : op.1 with
    | addProgress a => rw [hop] at hp; simp [plainOp] at hp
    | complete => rw [hop] at hp; simp [plainOp] at hp
    | updatePhase p msg => trivial
    | completePhase p => trivial
    | updatePlugin pid msg percent => trivial
    | fail e => trivial

theorem monoOps_append {l1 l2 : List (TrackerOp × Bool)} :
    ∀ {s : TrackerState}, monoOps s l1 → monoOps (lastTrackerState s l1) l2 →
    monoOps s (l1 ++ l2) := by
  induction l1 with
  | nil => intro s _ h2; exact h2
  | cons op ops ih =>
    intro s h1 h2
    obtain ⟨ha, hb⟩ := h1
    exact ⟨ha, ih hb h2⟩

theorem monoOps_collectionOps {s : TrackerState} (h : s.currentProgress ≤ 100)
    (n : Nat) : monoOps s (collectionOps n) := by
  have hw : (0 : ℚ) ≤ 40 / (n : ℚ) := div_nonneg (by norm_num) (Nat.cast_nonneg n)
  suffices H : ∀ k (t : TrackerState), t.currentProgress ≤ 100 →
      monoOps t (List.replicate k (TrackerOp.addProgress (40 / (n : ℚ)), true)) from
    H n s h
  intro k
  induction k with
  | zero => intro t _; trivial
  | succ m ih =>
    intro t htl
    refine ⟨⟨hw, htl⟩, ?_⟩
    exact ih _ (min_le_left _ _)

theorem preCollection_progress (n : Nat) :
    (lastTrackerState {} (preCollectionOps n)).currentProgress = 5 := by
  norm_num [lastTrackerState, preCollectionOps, applyTrackerOp,
    TrackerState.setMsg, TrackerState.isDone, TrackerState.setDone, phaseWeight]

theorem monoOps_front_base (n : Nat) : monoOps {} (frontBase n) := by
  unfold frontBase
  apply monoOps_append
  · apply monoOps_append
    · exact monoOps_of_plain (by intro op hop; fin_cases hop <;> rfl) _
    · refine monoOps_collectionOps ?_ n
      rw [preCollection_progress]
      norm_num
  · exact monoOps_of_plain (by intro op hop; fin_cases hop <;> rfl) _

theorem keepsRunning_front_base (n : Nat) :
    ∀ op ∈ frontBase n, keepsRunning op.1 = true := by
  intro op hop
  unfold frontBase at hop
  rcases List.mem_append.mp hop with hab | hc
  · rcases List.mem_append.mp hab with ha | hb
    · fin_cases ha <;> rfl
    · obtain ⟨-, rfl⟩ := (List.mem_replicate).mp hb
      rfl
  · fin_cases hc <;> rfl

theorem jsRound_mono {a b : ℚ} (h : a ≤ b) : jsRound a ≤ jsRound b :=
  Int.floor_le_floor (by linarith)

/-- Assembly: a run whose op list satisfies the mono conditions, all of whose
non-terminal ops keep the status running, and whose final op is terminal,
yields a recorded-progress sequence that is monotone on its running prefix. -/
theorem trace_chain_of_ops {front : List (TrackerOp × Bool)} {lastOp : TrackerOp}
    (hmono : monoOps {} front)
    (hkeep : ∀ op ∈ front, keepsRunning op.1 = true)
    (hterm : keepsRunning lastOp = false) :
    List.Chain' (fun a b => jsRound a.currentProgress ≤ jsRound b.currentProgress)
      (((({} : TrackerState) :: trackerTraceFlagged {} front) ++
        [applyTrackerOp (lastTrackerState {} front) lastOp]).takeWhile
          (fun s => s.status == TrackerStatus.running)) := by
  have hlast : ¬ (applyTrackerOp (lastTrackerState {} front) lastOp).status =
      TrackerStatus.running := by
    cases lastOp with
    | complete => simp [applyTrackerOp]
    | fail e => simp [applyTrackerOp]
    | updatePhase p msg => simp [keepsRunning] at hterm
    | completePhase p => simp [keepsRunning] at hterm
    | updatePlugin pid msg percent => simp [keepsRunning] at hterm
    | addProgress a => simp [keepsRunning] at hterm
  have hrun : ∀ x ∈ ({} : TrackerState) :: trackerTraceFlagged {} front,
      x.status = TrackerStatus.running := by
    intro x hx
    rcases List.mem_cons.mp hx with rfl | hx'
    · rfl
    · exact trackerTrace_running rfl hkeep x hx'
  rw [takeWhile_append_terminal hrun hlast]
  exact List.Chain'.imp (fun a b h => jsRound_mono h)
    (chain_trackerTrace (le_refl _) hmono)

/-! ### Claim theorems for retries and the plugin base class -/

/-- C5 (counterexample): with no cached result and an always-throwing
`doSearch`, `search` invokes `doSearch` 4 times (p-retry's `retries: 3` means
3 *retries* after the initial attempt), not at most 3; and the backoff
between attempts is exponential (factor 2 from the defaults), not fixed:
the first two delays differ (1000ms then 2000ms). -/
theorem C5_counterexample :
    BaseSourcePlugin.searchAttempts none (fun _ => Except.error ({} : JsError)) = 4 ∧
    ¬ BaseSourcePlugin.searchAttempts none (fun _ => Except.error ({} : JsError)) ≤ 3 ∧
    retryTimeout (mergeRetryOptions { retries := some 3, minTimeout := some 1000 }) 0 = 1000 ∧
    retryTimeout (mergeRetryOptions { retries := some 3, minTimeout := some 1000 }) 1 = 2000 := by
  refine ⟨rfl, by decide, rfl, rfl⟩

/-- C5 (amended): with no cached result, `search` invokes `doSearch` at most
4 times (1 initial + 3 retries); when every attempt throws it performs
exactly 4 invocations and surfaces the last error through `handleError`; the
backoff before the `a`-th retry is exponential: `min(30000, 1000 * 2^a)`
(1000ms, 2000ms, 4000ms), not fixed. -/
theorem C5_retry_schedule (id name : String)
    (doSearch : Nat → Except JsError PluginResult) (g : Nat → JsError)
    (h : ∀ n, doSearch n = Except.error (g n)) :
    (∀ f : Nat → Except JsError PluginResult,
      BaseSourcePlugin.searchAttempts none f ≤ 4) ∧
    BaseSourcePlugin.searchAttempts none doSearch = 4 ∧
    BaseSourcePlugin.search id name none doSearch =
      { success := false, documents := [],
        metadata := { source := id, documentsFound := 0 },
        error := some (BaseSourcePlugin.handleError name (g 4)) } ∧
    ∀ a, retryTimeout (mergeRetryOptions { retries := some 3, minTimeout := some 1000 }) a =
      min 30000 (1000 * 2 ^ a) := by
  refine ⟨fun f => ?_, ?_, ?_, fun a => rfl⟩
  · exact pRetryRun_count_le f 1 3
  · show (pRetryRun doSearch 1 3).2 = 4
    rw [pRetryRun_allFail doSearch g h 1 3]
  · show (match (pRetryRun doSearch 1 3).1 with
      | .ok r => r
      | .error e =>
        ({ success := false, documents := [],
           metadata := { source := id, documentsFound := 0 },
           error := some (BaseSourcePlugin.handleError name e) } : PluginResult)) = _
    rw [pRetryRun_allFail doSearch g h 1 3]

/-- Witness for C5: a `doSearch` that always throws a timeout error is
invoked exactly 4 times. -/
theorem C5_retry_schedule_witness :
    BaseSourcePlugin.searchAttempts none
      (fun _ => Except.error ({ code := some "ETIMEDOUT" } : JsError)) = 4 :=
  (C5_retry_schedule "github" "GitHub"
    (fun _ => Except.error ({ code := some "ETIMEDOUT" } : JsError))
    (fun _ => { code := some "ETIMEDOUT" }) (fun _ => rfl)).2.1

/-- C10: when there is no cached result and every retry attempt of `doSearch`
throws, `search` still returns (never throws): a `PluginResult` with
`success = false`, an empty document list, and an error classified as
`USER_ERROR`, `TEMP_ERROR` or `PERM_ERROR`, where `TEMP_ERROR` always carries
a `retryIn` delay. -/
theorem C10_search_total_failure (id name : String)
    (doSearch : Nat → Except JsError PluginResult) (g : Nat → JsError)
    (h : ∀ n, doSearch n = Except.error (g n)) :
    (BaseSourcePlugin.search id name none doSearch).success = false ∧
    (BaseSourcePlugin.search id name none doSearch).documents = [] ∧
    ∃ pe : PluginError,
      (BaseSourcePlugin.search id name none doSearch).error = some pe ∧
      (pe.code = ErrorCode.USER_ERROR ∨ pe.code = ErrorCode.TEMP_ERROR ∨
        pe.code = ErrorCode.PERM_ERROR) ∧
      (pe.code = ErrorCode.TEMP_ERROR → pe.retryIn.isSome) := by
  have hs : BaseSourcePlugin.search id name none doSearch =
      { success := false, documents := [],
        metadata := { source := id, documentsFound := 0 },
        error := some (BaseSourcePlugin.handleError name (g 4)) } := by
    show (match (pRetryRun doSearch 1 3).1 with
      | .ok r => r
      | .error e =>
        ({ success := false, documents := [],
           metadata := { source := id, documentsFound := 0 },
           error := some (BaseSourcePlugin.handleError name e) } : PluginResult)) = _
    rw [pRetryRun_allFail doSearch g h 1 3]
  rw [hs]
  refine ⟨rfl, rfl, BaseSourcePlugin.handleError name (g 4), rfl, ?_, ?_⟩
  · cases hc : (BaseSourcePlugin.handleError name (g 4)).code
    · exact Or.inl rfl
    · exact Or.inr (Or.inl rfl)
    · exact Or.inr (Or.inr rfl)
  · exact handleError_temp_retryIn name (g 4)

/-- Witness for C10: a plugin whose `doSearch` always throws a 429 error
returns a failed result carrying a `TEMP_ERROR` with a retry delay. -/
theorem C10_search_total_failure_witness :
    (BaseSourcePlugin.search "github" "GitHub" none
      (fun _ => Except.error ({ status := some 429 } : JsError))).success = false ∧
    (BaseSourcePlugin.search "github" "GitHub" none
      (fun _ => Except.error ({ status := some 429 } : JsError))).documents = [] :=
  ⟨(C10_search_total_failure "github" "GitHub"
      (fun _ => Except.error ({ status := some 429 } : JsError))
      (fun _ => { status := some 429 }) (fun _ => rfl)).1,
   (C10_search_total_failure "github" "GitHub"
      (fun _ => Except.error ({ status := some 429 } : JsError))
      (fun _ => { status := some 429 }) (fun _ => rfl)).2.1⟩

/-! ### Claim theorems for the job queue -/

/-- C2 (counterexample): the terminal-state invariant is not preserved by
*arbitrary* operation sequences.  Applying `completeJob` and then `failJob` to
the same job leaves `status = 'failed'` with the stale `result` still set,
because `failJob` never clears the `result` column. -/
theorem C2_counterexample :
    ¬ terminalInv (runOps [] [QOp.create "j" "d" 0, QOp.complete "j" "r" 1,
      QOp.fail "j" "e" 2]) ∧
    ∃ r ∈ runOps [] [QOp.create "j" "d" 0, QOp.complete "j" "r" 1, QOp.fail "j" "e" 2],
      r.status = QStatus.failed ∧ r.result = some "r" := by
  decide

/-- C2 (amended): starting from an empty table, after any sequence of
`createJob`/`getNextJob`/`updateJobProgress`/`completeJob`/`failJob`
operations in which `createJob` ids are fresh (uuidv4 / PRIMARY KEY) and each
terminal transition (`completeJob`/`failJob`) is applied only to a job that is
not already terminal, every row satisfies: `result` is set iff `status` is
`'completed'`, and `error` is set iff `status` is `'failed'`. -/
theorem C2_terminal_state_invariant (ops : List QOp) (h : wfRun [] ops = true) :
    terminalInv (runOps [] ops) :=
  (queueInv_runOps ⟨by simp [idsNodup], fun r hr => absurd hr (List.not_mem_nil r)⟩ h).2

/-- Witness for C2: a concrete well-formed run (create, dequeue, complete)
satisfies the invariant. -/
theorem C2_terminal_state_invariant_witness :
    wfRun [] [QOp.create "j" "d" 0, QOp.next 1, QOp.complete "j" "r" 2] = true ∧
    terminalInv (runOps [] [QOp.create "j" "d" 0, QOp.next 1, QOp.complete "j" "r" 2]) :=
  ⟨by decide, C2_terminal_state_invariant _ (by decide)⟩

/-- C9 (counterexample): `getNextJob` does *not* return the earliest pending
job whenever one exists — its SELECT also filters on `attempts < 3`.  On a
table holding a single pending job with `attempts = 3`, a pending job exists
yet `getNextJob` returns null and leaves the table unchanged. -/
theorem C9_counterexample :
    (∃ r ∈ ([{ id := "a", status := QStatus.pending, data := "d",
               created_at := 0, attempts := 3 }] : QueueState),
        r.status = QStatus.pending) ∧
    (getNextJob 5 [{ id := "a", status := QStatus.pending, data := "d",
                     created_at := 0, attempts := 3 }]).1 = none ∧
    (getNextJob 5 [{ id := "a", status := QStatus.pending, data := "d",
                     created_at := 0, attempts := 3 }]).2 =
      [{ id := "a", status := QStatus.pending, data := "d",
         created_at := 0, attempts := 3 }] := by
  decide

/-- C9 (amended): on a table with unique ids, `getNextJob` returns null iff no
job with `status = 'pending'` *and* `attempts < 3` exists (leaving the table
unchanged); otherwise, in one transaction, it selects a pending job with
`attempts < 3` of minimal `created_at`, flips exactly that row to
`'processing'` (recording `started_at` and incrementing `attempts`), returns
it, and modifies no other row. -/
theorem C9_getNextJob_spec (s : QueueState) (now : Int) (hnd : idsNodup s) :
    (selectNextPending s = none ↔
      ∀ r ∈ s, ¬(r.status = QStatus.pending ∧ r.attempts < 3)) ∧
    (selectNextPending s = none → getNextJob now s = (none, s)) ∧
    ∀ r, selectNextPending s = some r →
      r ∈ s ∧ r.status = QStatus.pending ∧ r.attempts < 3 ∧
      (∀ x ∈ s, x.status = QStatus.pending → x.attempts < 3 →
        r.created_at ≤ x.created_at) ∧
      getNextJob now s =
        (some (markProcessing now r),
         s.map fun x => if x.id = r.id then markProcessing now x else x) := by
  refine ⟨selectNextPending_none_iff, fun h => by simp [getNextJob, h], ?_⟩
  intro r hsel
  obtain ⟨hr, hp, ha, hmin⟩ := selectNextPending_spec hsel
  refine ⟨hr, hp, ha, hmin, ?_⟩
  simp only [getNextJob, hsel]
  exact congrArg (·, updateRow r.id (markProcessing now) s)
    (find?_updateRow hnd hr (markProcessing now) (fun x => rfl))

/-- Witness for C9: on a one-row table the dequeued job is the pending row
flipped to processing with `attempts` incremented. -/
theorem C9_getNextJob_spec_witness :
    getNextJob 5 [{ id := "a", status := QStatus.pending, data := "d",
                    created_at := (0 : Int) }] =
      (some (markProcessing 5 { id := "a", status := QStatus.pending, data := "d",
                                created_at := (0 : Int) }),
       ([{ id := "a", status := QStatus.pending, data := "d",
           created_at := (0 : Int) }] : QueueState).map
         fun x => if x.id = "a" then markProcessing 5 x else x) :=
  ((C9_getNextJob_spec
      [{ id := "a", status := QStatus.pending, data := "d", created_at := (0 : Int) }] 5
      (by decide)).2.2
    { id := "a", status := QStatus.pending, data := "d", created_at := (0 : Int) }
    (by decide)).2.2.2.2

/-! ### Orchestrator lemmas and claim theorems -/

theorem researchRunOps_wf (plugins : List SourcePlugin) (query : String)
    (wrapperReject : Nat → Option JsError) (exportFormat : Option String)
    (getExportPlugin : String → Option ExportPlugin) :
    monoOps {} (researchRunOps plugins query wrapperReject exportFormat getExportPlugin).1 ∧
    (∀ op ∈ (researchRunOps plugins query wrapperReject exportFormat getExportPlugin).1,
      keepsRunning op.1 = true) ∧
    keepsRunning
      (researchRunOps plugins query wrapperReject exportFormat getExportPlugin).2 = false := by
  unfold researchRunOps
  by_cases hn : (getSourcePluginsForQuery plugins).length = 0
  · rw [if_pos hn]
    refine ⟨monoOps_of_plain ?_ _, ?_, rfl⟩
    · intro op hop; fin_cases hop <;> rfl
    · intro op hop; fin_cases hop <;> rfl
  · rw [if_neg hn]
    cases hana : analyzeDocuments
        (executeSourcePlugins (getSourcePluginsForQuery plugins) wrapperReject) query with
    | error e => exact ⟨monoOps_front_base _, keepsRunning_front_base _, rfl⟩
    | ok a =>
      dsimp only
      cases exportFormat with
      | none =>
        refine ⟨monoOps_append (monoOps_front_base _) (monoOps_of_plain ?_ _), ?_, rfl⟩
        · intro op hop; fin_cases hop <;> rfl
        · intro op hop
          rcases List.mem_append.mp hop with h | h
          · exact keepsRunning_front_base _ op h
          · fin_cases h <;> rfl
      | some fmt =>
        dsimp only
        cases hexp : exportResults getExportPlugin fmt with
        | error e2 =>
          dsimp only
          refine ⟨monoOps_append (monoOps_front_base _) (monoOps_of_plain ?_ _), ?_, rfl⟩
          · intro op hop; fin_cases hop <;> rfl
          · intro op hop
            rcases List.mem_append.mp hop with h | h
            · exact keepsRunning_front_base _ op h
            · fin_cases h <;> rfl
        | ok u =>
          dsimp only
          refine ⟨monoOps_append (monoOps_front_base _) (monoOps_of_plain ?_ _), ?_, rfl⟩
          · intro op hop; fin_cases hop <;> rfl
          · intro op hop
            rcases List.mem_append.mp hop with h | h
            · exact keepsRunning_front_base _ op h
            · fin_cases h <;> rfl

/-- C1: over every `executeResearch` run — any plugin set and outcomes, any
export request, any failure point — the progress values recorded by the
emitted `getState` snapshots are monotonically non-decreasing while the
tracker status is still `running` (i.e. until the job reaches a terminal
state): consecutive recorded values satisfy `p[i] <= p[i+1]`. -/
theorem C1_progress_monotone_while_running (plugins : List SourcePlugin)
    (query : String) (wrapperReject : Nat → Option JsError)
    (exportFormat : Option String) (getExportPlugin : String → Option ExportPlugin) :
    List.Chain' (fun a b => jsRound a.currentProgress ≤ jsRound b.currentProgress)
      ((executeResearchTrace plugins query wrapperReject exportFormat
          getExportPlugin).takeWhile
        (fun s => s.status == TrackerStatus.running)) := by
  obtain ⟨hm, hk, ht⟩ :=
    researchRunOps_wf plugins query wrapperReject exportFormat getExportPlugin
  exact trace_chain_of_ops hm hk ht

/-- C4: `executeSourcePlugins` yields exactly one record per plugin, each
depending only on its own plugin's outcome (allSettled isolation); a plugin
whose `search` throws, or whose task promise rejects, becomes a FAILED record
with a `PERM_ERROR`. -/
theorem C4_sibling_isolation (ps : List SourcePlugin)
    (wrapperReject : Nat → Option JsError) :
    (executeSourcePlugins ps wrapperReject).length = ps.length ∧
    (∀ (i : Nat) (hi : i < ps.length)
        (hi2 : i < (executeSourcePlugins ps wrapperReject).length),
      (executeSourcePlugins ps wrapperReject)[i] = settleOne ps[i] (wrapperReject i)) ∧
    (∀ (p : SourcePlugin) (e : JsError), p.search = Except.error e →
      (settleOne p none).pluginId = p.id ∧
      (settleOne p none).status = PluginStatus.FAILED ∧
      (settleOne p none).error = some { code := ErrorCode.PERM_ERROR,
                                        message := e.message.getD "Plugin execution failed" }) ∧
    ∀ (p : SourcePlugin) (e : JsError),
      (settleOne p (some e)).pluginId = p.id ∧
      (settleOne p (some e)).status = PluginStatus.FAILED ∧
      (settleOne p (some e)).error = some { code := ErrorCode.PERM_ERROR,
                                            message := jsOr e.message "Plugin execution failed" } := by
  refine ⟨by simp [executeSourcePlugins, List.enum_length], ?_, ?_, ?_⟩
  · intro i hi hi2
    simp [executeSourcePlugins, List.getElem_map, List.getElem_enum]
  · intro p e he
    have hs : settleOne p none =
        { pluginId := p.id, status := PluginStatus.FAILED,
          error := some { code := ErrorCode.PERM_ERROR,
                          message := e.message.getD "Plugin execution failed" } } := by
      show executeSourcePlugin p = _
      unfold executeSourcePlugin
      rw [he]
    rw [hs]
    exact ⟨rfl, rfl, rfl⟩
  · intro p e
    exact ⟨rfl, rfl, rfl⟩

/-- Witness for C4: a healthy plugin next to a throwing one — two records
come back, and the throwing one is FAILED with a PERM_ERROR. -/
theorem C4_sibling_isolation_witness :
    (executeSourcePlugins
      [{ id := "ok", supports := Except.ok true,
          search := Except.ok { success := true, documents := [],
                                metadata := { source := "ok", documentsFound := 0 } } },
       { id := "boom", supports := Except.ok true,
          search := Except.error { message := some "kaput" } }]
      (fun _ => none)).length = 2 ∧
    (settleOne { id := "boom", supports := Except.ok true,
                 search := Except.error { message := some "kaput" } } none).status =
      PluginStatus.FAILED :=
  ⟨(C4_sibling_isolation
      [{ id := "ok", supports := Except.ok true,
          search := Except.ok { success := true, documents := [],
                                metadata := { source := "ok", documentsFound := 0 } } },
       { id := "boom", supports := Except.ok true,
          search := Except.error { message := some "kaput" } }]
      (fun _ => none)).1,
   ((C4_sibling_isolation [] (fun _ => none)).2.2.1
      { id := "boom", supports := Except.ok true,
        search := Except.error { message := some "kaput" } }
      { message := some "kaput" } rfl).2.1⟩

/-- C7: when no registered source plugin supports the query, `executeResearch`
throws `'No plugins available for this query'` and performs zero plugin
searches (hence no network call). -/
theorem C7_fail_fast_no_plugins (plugins : List SourcePlugin) (query : String)
    (wrapperReject : Nat → Option JsError) (exportFormat : Option String)
    (getExportPlugin : String → Option ExportPlugin)
    (h : ∀ p ∈ plugins, supportsOk p = false) :
    getSourcePluginsForQuery plugins = [] ∧
    executeResearch plugins query wrapperReject exportFormat getExportPlugin =
      (Except.error "No plugins available for this query", 0) := by
  have hsel : getSourcePluginsForQuery plugins = [] := by
    unfold getSourcePluginsForQuery
    rw [List.filter_eq_nil_iff]
    intro p hp
    simp [h p hp]
  refine ⟨hsel, ?_⟩
  unfold executeResearch
  rw [hsel]
  rfl

/-- Witness for C7: a single plugin whose `supports` returns false makes the
run fail fast with no search performed. -/
theorem C7_fail_fast_no_plugins_witness :
    executeResearch
      [{ id := "gh", supports := Except.ok false,
          search := Except.ok { success := true, documents := [],
                                metadata := { source := "gh", documentsFound := 0 } } }]
      "q" (fun _ => none) none (fun _ => none) =
      (Except.error "No plugins available for this query", 0) :=
  (C7_fail_fast_no_plugins
    [{ id := "gh", supports := Except.ok false,
        search := Except.ok { success := true, documents := [],
                              metadata := { source := "gh", documentsFound := 0 } } }]
    "q" (fun _ => none) none (fun _ => none)
    (by intro p hp; fin_cases hp; rfl)).2

/-- C8: the analysis step aggregates exactly the documents of COMPLETED
plugin results, and it throws `'No documents collected from any source'`
precisely when that aggregation is empty; on success the analysis carries the
aggregated count and the first 10 documents. -/
theorem C8_completed_aggregation (results : List PluginExecutionResult)
    (query : String) :
    collectDocuments results =
      (results.filter fun r => r.status == PluginStatus.COMPLETED).flatMap
        (fun r => match r.result with | some pr => pr.documents | none => []) ∧
    (analyzeDocuments results query =
        Except.error "No documents collected from any source" ↔
      collectDocuments results = []) ∧
    ∀ a, analyzeDocuments results query = Except.ok a →
      collectDocuments results ≠ [] ∧
      a.sources = (collectDocuments results).take 10 ∧
      a.totalDocuments = (collectDocuments results).length := by
  refine ⟨?_, ?_, ?_⟩
  · induction results with
    | nil => rfl
    | cons r rest ih =>
      by_cases hc : r.status = PluginStatus.COMPLETED
      · simp [collectDocuments, List.filter_cons, hc, ih]
      · simp [collectDocuments, List.filter_cons, hc, ih]
  · unfold analyzeDocuments
    by_cases hz : (collectDocuments results).length = 0
    · rw [if_pos hz]
      simp [List.length_eq_zero.mp hz]
    · rw [if_neg hz]
      constructor
      · intro hcontra; cases hcontra
      · intro hnil
        exact absurd (by rw [hnil]; rfl) hz
  · intro a ha
    unfold analyzeDocuments at ha
    by_cases hz : (collectDocuments results).length = 0
    · rw [if_pos hz] at ha; cases ha
    · rw [if_neg hz] at ha
      have := Except.ok.inj ha
      refine ⟨fun hnil => hz (by rw [hnil]; rfl), ?_, ?_⟩
      · rw [← this]
      · rw [← this]

/-- Witness for C8: one COMPLETED result with a document and one FAILED
result — only the COMPLETED result's document is aggregated and analysis
succeeds with `totalDocuments = 1`. -/
theorem C8_completed_aggregation_witness :
    collectDocuments
      [{ pluginId := "a", status := PluginStatus.COMPLETED,
          result := some { success := true,
                           documents := [{ id := "d", title := "t", content := "c" }],
                           metadata := { source := "a", documentsFound := 1 } } },
       { pluginId := "b", status := PluginStatus.FAILED,
          result := some { success := false,
                           documents := [{ id := "x", title := "x", content := "x" }],
                           metadata := { source := "b", documentsFound := 1 } } }] =
      [{ id := "d", title := "t", content := "c" }] ∧
    ∀ a, analyzeDocuments
      [({ pluginId := "a", status := PluginStatus.COMPLETED,
           result := some { success := true,
                            documents := [{ id := "d", title := "t", content := "c" }],
                            metadata := { source := "a", documentsFound := 1 } } } :
           PluginExecutionResult)] "q" = Except.ok a →
      a.totalDocuments = 1 :=
  ⟨by rfl,
   fun a ha =>
    ((C8_completed_aggregation
      [({ pluginId := "a", status := PluginStatus.COMPLETED,
           result := some { success := true,
                            documents := [{ id := "d", title := "t", content := "c" }],
                            metadata := { source := "a", documentsFound := 1 } } } :
           PluginExecutionResult)] "q").2.2 a ha).2.2⟩

/-- C3 (counterexample): an export plugin whose `export` itself rejects DOES
make `executeResearch` throw: the orchestrator awaits `exportPlugin.export`
inside the fatal try/catch, whose handler re-throws.  Here discovery,
collection and analysis all succeed (analysis sees 1 document), yet the run
ends in the thrown export error. -/
theorem C3_counterexample :
    (∃ a, analyzeDocuments
        (executeSourcePlugins (getSourcePluginsForQuery [c3Plugin]) (fun _ => none))
        "q" = Except.ok a ∧ a.totalDocuments = 1) ∧
    (executeResearch [c3Plugin] "q" (fun _ => none) (some "notion")
      (fun _ => some { id := "notion", format := "notion",
                       exportRun := Except.error "boom" })).1 =
      Except.error "boom" :=
  ⟨⟨_, rfl, rfl⟩, rfl⟩

/-- C3 (amended): when the export plugin registered for the requested format
is built on `BaseExportPlugin` — whose `export` wrapper catches `doExport`
errors and always fulfills — or when no plugin matches the format, an export
failure never makes `executeResearch` throw: a run whose analysis succeeded
still returns the successful `ResearchResult` with the analysis intact, for
any requested format and any `doExport` outcome. -/
theorem C3_base_export_swallowed (plugins : List SourcePlugin) (query : String)
    (wrapperReject : Nat → Option JsError) (fmt : String)
    (getExportPlugin : String → Option ExportPlugin)
    (hbase : getExportPlugin fmt = none ∨
      ∃ pid vOk dE, getExportPlugin fmt = some (mkBaseExportPlugin pid fmt vOk dE))
    (a : AnalysisResult)
    (ha : analyzeDocuments
        (executeSourcePlugins (getSourcePluginsForQuery plugins) wrapperReject) query =
      Except.ok a) :
    (executeResearch plugins query wrapperReject (some fmt) getExportPlugin).1 =
      Except.ok
        { success := true, analysis := a,
          pluginResults :=
            executeSourcePlugins (getSourcePluginsForQuery plugins) wrapperReject,
          pluginsUsed := (getSourcePluginsForQuery plugins).map SourcePlugin.id,
          totalDocuments := a.totalDocuments } := by
  have hn : ¬ (getSourcePluginsForQuery plugins).length = 0 := by
    intro h0
    rw [List.length_eq_zero.mp h0] at ha
    simp [executeSourcePlugins, analyzeDocuments, collectDocuments] at ha
  have hexp : exportResults getExportPlugin fmt = Except.ok () := by
    rcases hbase with h | ⟨pid, vOk, dE, h⟩
    · simp [exportResults, h]
    · simp [exportResults, h, mkBaseExportPlugin]
  simp only [executeResearch, if_neg hn, ha, hexp]

/-- Witness for C3: a one-plugin run exporting to a Base-class plugin whose
`doExport` throws still returns the successful result. -/
theorem C3_base_export_swallowed_witness :
    (executeResearch [c3Plugin] "q" (fun _ => none) (some "notion")
      (fun _ => some (mkBaseExportPlugin "notion" "notion" true
        (Except.error "doExport exploded")))).1 =
      Except.ok
        { success := true, analysis := c3Analysis,
          pluginResults :=
            executeSourcePlugins (getSourcePluginsForQuery [c3Plugin]) (fun _ => none),
          pluginsUsed := (getSourcePluginsForQuery [c3Plugin]).map SourcePlugin.id,
          totalDocuments := c3Analysis.totalDocuments } :=
  C3_base_export_swallowed [c3Plugin] "q" (fun _ => none) "notion"
    (fun _ => some (mkBaseExportPlugin "notion" "notion" true
      (Except.error "doExport exploded")))
    (Or.inr ⟨"notion", true, Except.error "doExport exploded", rfl⟩)
    c3Analysis rfl

/-! ### Claim theorems for the job lifecycle -/

/-- C6: whenever `updatePluginStatus` leaves at least one plugin `'failed'`
and at least one plugin `'completed'`, the overall status is set to
`PARTIAL_OK`; and the terminal transitions never read that status —
`succeed()` always sets and returns `SUCCEEDED` with `percentComplete = 100`,
and `fail()` always sets and returns `FAILED`, whatever the prior status. -/
theorem C6_partialOk_never_read :
    (∀ (j : JobLifecycleState) (pid : String) (p : PluginJobPatch),
      ((JobLifecycle.updatePluginStatus pid p j).pluginStatuses.map Prod.snd).any
          (fun s => s.status == PJStatus.failed) = true →
      ((JobLifecycle.updatePluginStatus pid p j).pluginStatuses.map Prod.snd).any
          (fun s => s.status == PJStatus.completed) = true →
      (JobLifecycle.updatePluginStatus pid p j).status = JobStatus.partialOk) ∧
    (∀ (j : JobLifecycleState) (d : Option String),
      (JobLifecycle.succeed d j).1.status = JobStatus.succeeded ∧
      (JobLifecycle.succeed d j).2.status = JobStatus.succeeded ∧
      (JobLifecycle.succeed d j).2.percentComplete = 100) ∧
    ∀ (j : JobLifecycleState) (e : JobLifecycle.JobError),
      (JobLifecycle.fail e j).1.status = JobStatus.failed ∧
      (JobLifecycle.fail e j).2.status = JobStatus.failed := by
  refine ⟨?_, fun j d => ⟨rfl, rfl, rfl⟩, fun j e => ⟨rfl, rfl⟩⟩
  intro j pid p h1 h2
  simp only [JobLifecycle.updatePluginStatus] at h1 h2 ⊢
  rw [h1, h2]
  rfl

/-- Witness for C6: a run that completes plugin `a`, fails plugin `b`
(driving the status to `PARTIAL_OK`), and then calls `succeed`, which still
reports `SUCCEEDED`. -/
theorem C6_partialOk_never_read_witness :
    (JobLifecycle.updatePluginStatus "b" { status := some PJStatus.failed }
        (JobLifecycle.updatePluginStatus "a" { status := some PJStatus.completed }
          JobLifecycle.init)).status = JobStatus.partialOk ∧
    (JobLifecycle.succeed none
        (JobLifecycle.updatePluginStatus "b" { status := some PJStatus.failed }
          (JobLifecycle.updatePluginStatus "a" { status := some PJStatus.completed }
            JobLifecycle.init))).1.status = JobStatus.succeeded :=
  ⟨C6_partialOk_never_read.1
      (JobLifecycle.updatePluginStatus "a" { status := some PJStatus.completed }
        JobLifecycle.init)
      "b" { status := some PJStatus.failed } (by decide) (by decide),
   (C6_partialOk_never_read.2.1
      (JobLifecycle.updatePluginStatus "b" { status := some PJStatus.failed }
        (JobLifecycle.updatePluginStatus "a" { status := some PJStatus.completed }
          JobLifecycle.init)) none).1⟩

end ResearchEngine
